import Mathlib

/-!
Verification of the `go-mage-shared` repository's process-execution layer
(`execx.Exec.Run`, `streamToSlog`) and of its option-builder runners
(`kox`, `helmx`, `golang`), as a shallow embedding in Lean.

The executor interacts with the operating system (pipes, process start,
wait, a cancellation context).  Those interactions are embedded as an
explicit `CmdWorld` record giving the outcome of each OS call, and
`Exec.Run` becomes a pure function of that record and of the byte streams
the subprocess produces.  The concurrency structure of `Run` (two drain
goroutines spawned before the blocking wait) is embedded separately as a
happens-before relation on event traces.
-/

namespace execx

/-- Which of the two output streams of the subprocess. -/
inductive StreamKind
  | stdout
  | stderr
deriving DecidableEq, Repr, BEq

/-- The wrapped errors `Exec.Run` can return, mirroring the four
`fmt.Errorf` sites in the source: a pipe-acquisition failure, a start
failure, a cancellation, and a run failure.  Each carries the data the
source wraps into the message. -/
inductive RunError
  | pipeFailure (kind : StreamKind) (cause : String)
  | startFailure (command : String) (cause : String)
  | cancelledFailure (command : String) (cause : String)
  | runFailure (command : String) (cause : String)
deriving DecidableEq, Repr, BEq

/-- The message each wrapped error renders to, following the
`fmt.Errorf` format strings of the source. -/
def RunError.message : RunError → String
  | .pipeFailure .stdout cause => "failed to get stdout pipe: " ++ cause
  | .pipeFailure .stderr cause => "failed to get stderr pipe: " ++ cause
  | .startFailure command cause =>
      "failed to start command \"" ++ command ++ "\": " ++ cause
  | .cancelledFailure command cause =>
      "command \"" ++ command ++ "\" canceled: " ++ cause
  | .runFailure command cause =>
      "command \"" ++ command ++ "\" failed: " ++ cause

/-- Outcome of each OS-level call `Exec.Run` makes, in the order the
source makes them: `StdoutPipe`, `StderrPipe`, `Start`, `Wait`, and the
value of `ctx.Err()` observed after `Wait` returns an error.  `none`
means the call succeeds (for `ctxErr`: the context is not cancelled). -/
structure CmdWorld where
  stdoutPipeErr : Option String
  stderrPipeErr : Option String
  startErr : Option String
  waitErr : Option String
  ctxErr : Option String
deriving DecidableEq, Repr, BEq

/-- Severity of a structured log record (`slog` levels used by the source). -/
inductive LogLevel
  | info
  | warn
  | error
deriving DecidableEq, Repr, BEq

/-- One structured log record emitted by a stream consumer:
a line of stream text at the consumer's level, the "stream canceled"
notice (`slog.WarnContext` in the source), or the "failed to read stream"
report (`slog.ErrorContext` in the source). -/
inductive LogRecord
  | line (level : LogLevel) (text : String)
  | streamCanceled (reason : String)
  | streamReadError (cause : String)
deriving DecidableEq, Repr, BEq

/-- The severity each record is emitted at: lines at the consumer's
level, the cancellation notice via `slog.WarnContext`, the read-error
report via `slog.ErrorContext`. -/
def LogRecord.severity : LogRecord → LogLevel
  | .line level _ => level
  | .streamCanceled _ => .warn
  | .streamReadError _ => .error

/-- `maxCapacity` from `streamToSlog`: the 1 MiB cap on a scanned line. -/
def maxCapacity : Nat := 1024 * 1024

/-- The initial scanner buffer size from `streamToSlog` (64 KiB).  The
scanner grows the buffer internally up to `maxCapacity`; by the
documented contract of `bufio.Scanner.Buffer`, only the cap decides
which tokens can be delivered, so the embedding of the scan loop below
depends on `maxCapacity` alone. -/
def initialBufSize : Nat := 64 * 1024

/-- The error `bufio.Scanner` reports when a token exceeds the buffer cap. -/
def errTooLong : String := "bufio.Scanner: token too long"

/-- Did the consumer observe the context as cancelled at the current
iteration?  A fuel value of `some 0` means `ctx.Done()` is ready now;
`none` means the context is never cancelled while this consumer runs. -/
def observed : Option Nat → Bool
  | some 0 => true
  | _ => false

/-- Advance the cancellation fuel by one iteration. -/
def tick : Option Nat → Option Nat
  | none => none
  | some 0 => some 0
  | some (k + 1) => some k

/-- The loop of `streamToSlog`, embedded over the list of lines the
subprocess writes to this stream.  `bufio.Scanner` with
`Buffer(64 KiB, maxCapacity)` is modelled by its documented contract:
it yields each line whose size is within the cap and stops with
`ErrTooLong` at the first line exceeding it.  Per iteration the source
first calls `scanner.Scan()`, then checks `ctx.Done()` (logging the
warn notice and returning if cancelled), and otherwise logs the line at
`level`; after the loop it logs `scanner.Err()` if non-nil. -/
def streamLoop (level : LogLevel) : Option Nat → List String → List LogRecord
  | _, [] => []
  | cancelAt, l :: ls =>
    if maxCapacity < l.length then
      [.streamReadError errTooLong]
    else if observed cancelAt then
      [.streamCanceled "context canceled"]
    else
      .line level l :: streamLoop level (tick cancelAt) ls

/-- `streamToSlog`: consume one stream, producing the structured log
records it emits.  `cancelAt = some k` means this consumer observes the
context as cancelled from its `k`-th iteration on. -/
def streamToSlog (cancelAt : Option Nat) (lines : List String)
    (level : LogLevel) : List LogRecord :=
  streamLoop level cancelAt lines

/-- The `io.Copy` drain used when `streamToLog` is false: it copies every
chunk to the inherited terminal stream until end-of-stream, with no
context check and no log records. -/
def ioCopy : List String → List String
  | [] => []
  | c :: cs => c :: ioCopy cs

/-- Everything observable about one invocation of `Exec.Run`: which
phases ran, the returned error (or `none` for success), and what each
stream consumer produced (log records when `streamToLog`, raw copied
chunks otherwise). -/
structure RunOutcome where
  startCalled : Bool
  consumersLaunched : Bool
  waitCalled : Bool
  result : Option RunError
  stdoutLogs : List LogRecord
  stderrLogs : List LogRecord
  stdoutCopied : List String
  stderrCopied : List String
deriving DecidableEq, Repr, BEq

/-- `Exec.Run`, embedded.  The phases follow the source in order:
`StdoutPipe`, `StderrPipe` (either failure returns the wrapped pipe
error before `Start`), `Start` (failure returns the wrapped start error
before any consumer is launched), then the two consumers are launched
(`streamToSlog` at info for stdout and error for stderr when
`streamToLog`, `io.Copy` to the terminal otherwise), then `Wait`.  A
`Wait` error is classified by `ctx.Err()`: cancelled if the context was
already cancelled, run failure otherwise. -/
def ExecRun (w : CmdWorld) (command : String) (streamToLog : Bool)
    (outLines errLines : List String) (outCancel errCancel : Option Nat) :
    RunOutcome :=
  match w.stdoutPipeErr with
  | some e =>
    { startCalled := false, consumersLaunched := false, waitCalled := false
      result := some (.pipeFailure .stdout e)
      stdoutLogs := [], stderrLogs := [], stdoutCopied := [], stderrCopied := [] }
  | none =>
  match w.stderrPipeErr with
  | some e =>
    { startCalled := false, consumersLaunched := false, waitCalled := false
      result := some (.pipeFailure .stderr e)
      stdoutLogs := [], stderrLogs := [], stdoutCopied := [], stderrCopied := [] }
  | none =>
  match w.startErr with
  | some e =>
    { startCalled := true, consumersLaunched := false, waitCalled := false
      result := some (.startFailure command e)
      stdoutLogs := [], stderrLogs := [], stdoutCopied := [], stderrCopied := [] }
  | none =>
    { startCalled := true, consumersLaunched := true, waitCalled := true
      result :=
        match w.waitErr with
        | some e =>
          match w.ctxErr with
          | some cause => some (.cancelledFailure command cause)
          | none => some (.runFailure command e)
        | none => none
      stdoutLogs := if streamToLog then streamToSlog outCancel outLines .info else []
      stderrLogs := if streamToLog then streamToSlog errCancel errLines .error else []
      stdoutCopied := if streamToLog then [] else ioCopy outLines
      stderrCopied := if streamToLog then [] else ioCopy errLines }

/-- The final error classification of `Exec.Run` as a function of the OS
outcomes alone (the lines on the streams and the consumers' cancellation
observations do not enter it). -/
def runResult (w : CmdWorld) (command : String) : Option RunError :=
  match w.stdoutPipeErr with
  | some e => some (.pipeFailure .stdout e)
  | none =>
  match w.stderrPipeErr with
  | some e => some (.pipeFailure .stderr e)
  | none =>
  match w.startErr with
  | some e => some (.startFailure command e)
  | none =>
  match w.waitErr with
  | some e =>
    match w.ctxErr with
    | some cause => some (.cancelledFailure command cause)
    | none => some (.runFailure command e)
  | none => none

/-- A `CmdWorld` in which every OS call succeeds and the context is
never cancelled. -/
def okWorld : CmdWorld :=
  { stdoutPipeErr := none, stderrPipeErr := none, startErr := none
    waitErr := none, ctxErr := none }

/-- A concrete line one byte longer than the 1 MiB scanner cap. -/
def bigLine : String := String.mk (List.replicate (maxCapacity + 1) 'a')

/-- Events of one successful invocation of `Exec.Run`: the main
goroutine's calls (`StdoutPipe`, `StderrPipe`, `Start`, the two `go`
statements, the return of `Wait`, the return of `Run`), the subprocess's
exit, and each drain goroutine observing end-of-stream on its pipe. -/
inductive Ev
  | pipeOutEv
  | pipeErrEv
  | startEv
  | spawnOutEv
  | spawnErrEv
  | exitEv
  | outEofEv
  | errEofEv
  | waitRetEv
  | runRetEv
deriving DecidableEq, Repr, BEq

/-- All events of one successful invocation, each occurring once. -/
def allEvents : List Ev :=
  [.pipeOutEv, .pipeErrEv, .startEv, .spawnOutEv, .spawnErrEv,
   .exitEv, .outEofEv, .errEofEv, .waitRetEv, .runRetEv]

/-- `a` happens strictly before `b` in trace `t`. -/
def precedes (t : List Ev) (a b : Ev) : Prop :=
  t.indexOf a < t.indexOf b

instance (t : List Ev) (a b : Ev) : Decidable (precedes t a b) :=
  inferInstanceAs (Decidable (_ < _))

/-- The traces a successful invocation of `Exec.Run` can produce.  The
constraints are exactly the happens-before edges of the source: program
order in the main goroutine (`StdoutPipe`, `StderrPipe`, `Start`, the
two `go` statements, `Wait` returning, `Run` returning), each `go`
statement before any event of the goroutine it spawns, `Start` before
the subprocess exits, the exit before each drain can see end-of-stream
and before `Wait` can return.  The source contains no join of the drain
goroutines, so no edge orders `outEofEv`/`errEofEv` against
`waitRetEv`/`runRetEv`. -/
def ValidSuccessTrace (t : List Ev) : Prop :=
  t.Perm allEvents ∧
  precedes t .pipeOutEv .pipeErrEv ∧
  precedes t .pipeErrEv .startEv ∧
  precedes t .startEv .spawnOutEv ∧
  precedes t .spawnOutEv .spawnErrEv ∧
  precedes t .spawnErrEv .waitRetEv ∧
  precedes t .waitRetEv .runRetEv ∧
  precedes t .spawnOutEv .outEofEv ∧
  precedes t .spawnErrEv .errEofEv ∧
  precedes t .startEv .exitEv ∧
  precedes t .exitEv .outEofEv ∧
  precedes t .exitEv .errEofEv ∧
  precedes t .exitEv .waitRetEv

instance (t : List Ev) : Decidable (ValidSuccessTrace t) := by
  unfold ValidSuccessTrace
  infer_instance

/-- A schedule the source admits: the subprocess exits, `Wait` returns
and `Run` returns success while both drain goroutines are still waiting
to be scheduled; they observe end-of-stream only afterwards. -/
def lateDrainTrace : List Ev :=
  [.pipeOutEv, .pipeErrEv, .startEv, .spawnOutEv, .spawnErrEv,
   .exitEv, .waitRetEv, .runRetEv, .outEofEv, .errEofEv]

end execx

namespace kox

/-- One invocation of the injected `execx.Executor`: the command name,
the `streamToLog` flag and the argument list passed to `Run`. -/
structure ExecCall where
  command : String
  streamToLog : Bool
  args : List String
deriving DecidableEq, Repr, BEq

/-- `kox.BuildOptions`. -/
structure BuildOptions where
  ImportPath : String
  Tags : List String
  Platform : List String
  BaseImage : String
  Bare : Bool
  Local : Bool
  Push : Bool
  PreserveImportPaths : Bool
deriving DecidableEq, Repr, BEq

/-- The argument list `KoRunner.Build` assembles, append by append as in
the source. -/
def buildArgs (opts : BuildOptions) : List String :=
  ["build", opts.ImportPath]
    ++ opts.Tags.flatMap (fun t => ["--tags", t])
    ++ opts.Platform.flatMap (fun p => ["--platform", p])
    ++ (if opts.BaseImage = "" then [] else ["--base-import-paths", opts.BaseImage])
    ++ (if opts.Bare then ["--bare"] else [])
    ++ (if opts.Local then ["--local"] else [])
    ++ (if opts.Push then ["--push"] else [])
    ++ (if opts.PreserveImportPaths then ["--preserve-import-paths"] else [])

/-- `KoRunner.Build` with the executor injected as a function from a
call to its error outcome.  Returns the executor calls made and the
error returned (`none` for success).  An empty `ImportPath` fails
validation before any executor call. -/
def Build (exec : ExecCall → Option String) (opts : BuildOptions) :
    List ExecCall × Option String :=
  if opts.ImportPath = "" then
    ([], some "import path is required")
  else
    let call : ExecCall := ⟨"ko", false, buildArgs opts⟩
    ([call], exec call)

/-- `kox.ApplyOptions`. -/
structure ApplyOptions where
  Filenames : List String
  Recursive : Bool
  Selector : String
  BaseImage : String
  Platform : List String
  Local : Bool
  Bare : Bool
  PreserveImportPaths : Bool
deriving DecidableEq, Repr, BEq

/-- The argument list `KoRunner.Apply` assembles, append by append as in
the source. -/
def applyArgs (opts : ApplyOptions) : List String :=
  ["apply"]
    ++ opts.Filenames.flatMap (fun f => ["-f", f])
    ++ (if opts.Recursive then ["--recursive"] else [])
    ++ (if opts.Selector = "" then [] else ["--selector", opts.Selector])
    ++ (if opts.BaseImage = "" then [] else ["--base-import-paths", opts.BaseImage])
    ++ opts.Platform.flatMap (fun p => ["--platform", p])
    ++ (if opts.Local then ["--local"] else [])
    ++ (if opts.Bare then ["--bare"] else [])
    ++ (if opts.PreserveImportPaths then ["--preserve-import-paths"] else [])

/-- `KoRunner.Apply` with the executor injected.  An empty `Filenames`
list fails validation before any executor call. -/
def Apply (exec : ExecCall → Option String) (opts : ApplyOptions) :
    List ExecCall × Option String :=
  if opts.Filenames = [] then
    ([], some "at least one filename is required")
  else
    let call : ExecCall := ⟨"ko", false, applyArgs opts⟩
    ([call], exec call)

end kox

namespace helmx

/-- `helmx.InstallOptions`. -/
structure InstallOptions where
  ReleaseName : String
  Chart : String
  Namespace : String
  Values : List String
  Set : List String
  CreateNamespace : Bool
  Wait : Bool
  Timeout : String
deriving DecidableEq, Repr, BEq

/-- The argument list `HelmRunner.Install` assembles, append by append
as in the source. -/
def installArgs (opts : InstallOptions) : List String :=
  ["install", opts.ReleaseName, opts.Chart]
    ++ (if opts.Namespace = "" then [] else ["--namespace", opts.Namespace])
    ++ (if opts.CreateNamespace then ["--create-namespace"] else [])
    ++ opts.Values.flatMap (fun v => ["--values", v])
    ++ opts.Set.flatMap (fun s => ["--set", s])
    ++ (if opts.Wait then ["--wait"] else [])
    ++ (if opts.Timeout = "" then [] else ["--timeout", opts.Timeout])

/-- `HelmRunner.Install` with the executor injected.  An empty
`ReleaseName` or `Chart` fails validation before any executor call. -/
def Install (exec : kox.ExecCall → Option String) (opts : InstallOptions) :
    List kox.ExecCall × Option String :=
  if opts.ReleaseName = "" then
    ([], some "release name is required")
  else if opts.Chart = "" then
    ([], some "chart is required")
  else
    let call : kox.ExecCall := ⟨"helm", false, installArgs opts⟩
    ([call], exec call)

end helmx

namespace golang

/-- The executor call `GoRunner.RunInstall` makes for one package:
`go install <pkg> <extra args>`. -/
def installCall (pkg : String) (args : List String) : kox.ExecCall :=
  ⟨"go", false, "install" :: pkg :: args⟩

/-- The loop body of `GoRunner.RunInstall`: install each package in
order, stopping at the first executor failure and wrapping its error
with the package name. -/
def runInstallLoop (exec : kox.ExecCall → Option String) (args : List String) :
    List String → List kox.ExecCall × Option String
  | [] => ([], none)
  | pkg :: pkgs =>
    let call := installCall pkg args
    match exec call with
    | some e => ([call], some ("failed to install " ++ pkg ++ ": " ++ e))
    | none =>
      let r := runInstallLoop exec args pkgs
      (call :: r.1, r.2)

/-- `GoRunner.RunInstall` with the executor injected.  An empty package
list fails validation before any executor call. -/
def RunInstall (exec : kox.ExecCall → Option String) (pkgs : List String)
    (args : List String) : List kox.ExecCall × Option String :=
  if pkgs = [] then
    ([], some "no package specified for installation")
  else
    runInstallLoop exec args pkgs

/-- The command list `GoRunner.RunModTasks` iterates over. -/
def modTasksCommands : List (List String) :=
  [["mod", "tidy"], ["mod", "verify"]]

/-- The loop of `GoRunner.RunModTasks`: run each `go` command in order,
stopping at the first executor failure and wrapping its error with the
command text. -/
def runGoSeq (exec : kox.ExecCall → Option String) :
    List (List String) → List kox.ExecCall × Option String
  | [] => ([], none)
  | args :: rest =>
    let call : kox.ExecCall := ⟨"go", false, args⟩
    match exec call with
    | some e =>
      ([call], some ("failed to run 'go " ++ String.intercalate " " args ++ "': " ++ e))
    | none =>
      let r := runGoSeq exec rest
      (call :: r.1, r.2)

/-- `GoRunner.RunModTasks` with the executor injected: `go mod tidy`
then `go mod verify`, aborting at the first failure. -/
def RunModTasks (exec : kox.ExecCall → Option String) :
    List kox.ExecCall × Option String :=
  runGoSeq exec modTasksCommands

end golang

namespace execx

theorem ioCopy_eq (cs : List String) : ioCopy cs = cs := by
  induction cs with
  | nil => rfl
  | cons c cs ih => simp [ioCopy, ih]

theorem streamLoop_none_ok (level : LogLevel) (lines : List String)
    (h : ∀ l ∈ lines, l.length ≤ maxCapacity) :
    streamLoop level none lines = lines.map (LogRecord.line level) := by
  induction lines with
  | nil => rfl
  | cons l ls ih =>
    have hl : ¬ maxCapacity < l.length := by
      have := h l (by simp)
      omega
    have ihx := ih (fun x hx => h x (by simp [hx]))
    simp [streamLoop, hl, observed, tick, ihx]

theorem streamLoop_cancel (level : LogLevel) :
    ∀ (k : Nat) (lines : List String), k < lines.length →
      (∀ l ∈ lines, l.length ≤ maxCapacity) →
      streamLoop level (some k) lines
        = (lines.take k).map (LogRecord.line level)
          ++ [LogRecord.streamCanceled "context canceled"] := by
  intro k
  induction k with
  | zero =>
    intro lines hlen hcap
    cases lines with
    | nil => simp at hlen
    | cons l ls =>
      have hl : ¬ maxCapacity < l.length := by
        have := hcap l (by simp)
        omega
      simp [streamLoop, hl, observed]
  | succ k ih =>
    intro lines hlen hcap
    cases lines with
    | nil => simp at hlen
    | cons l ls =>
      have hl : ¬ maxCapacity < l.length := by
        have := hcap l (by simp)
        omega
      have hlen' : k < ls.length := by
        simp only [List.length_cons] at hlen
        omega
      have ihx := ih ls hlen' (fun x hx => hcap x (by simp [hx]))
      simp [streamLoop, hl, observed, tick, ihx]

theorem streamLoop_too_long (level : LogLevel) (bad : String) (rest : List String)
    (hb : maxCapacity < bad.length) :
    ∀ good : List String, (∀ l ∈ good, l.length ≤ maxCapacity) →
      streamLoop level none (good ++ bad :: rest)
        = good.map (LogRecord.line level)
          ++ [LogRecord.streamReadError errTooLong] := by
  intro good
  induction good with
  | nil =>
    intro _
    simp [streamLoop, hb]
  | cons g gs ih =>
    intro hg
    have hl : ¬ maxCapacity < g.length := by
      have := hg g (by simp)
      omega
    have ihx := ih (fun x hx => hg x (by simp [hx]))
    simp [streamLoop, hl, observed, tick, ihx]

theorem execRun_result_eq (w : CmdWorld) (command : String) (streamToLog : Bool)
    (outLines errLines : List String) (outCancel errCancel : Option Nat) :
    (ExecRun w command streamToLog outLines errLines outCancel errCancel).result
      = runResult w command := by
  obtain ⟨o, s, st, wt, cx⟩ := w
  cases o <;> cases s <;> cases st <;> cases wt <;> cases cx <;> rfl

end execx

namespace golang

theorem runInstallLoop_all_ok (exec : kox.ExecCall → Option String)
    (args : List String) :
    ∀ pkgs : List String, (∀ q ∈ pkgs, exec (installCall q args) = none) →
      runInstallLoop exec args pkgs
        = (pkgs.map (fun q => installCall q args), none) := by
  intro pkgs
  induction pkgs with
  | nil => intro _; rfl
  | cons p ps ih =>
    intro h
    have hp : exec (installCall p args) = none := h p (by simp)
    have ihp := ih (fun q hq => h q (by simp [hq]))
    simp [runInstallLoop, hp, ihp]

theorem runInstallLoop_first_fail (exec : kox.ExecCall → Option String)
    (args : List String) (p e : String) (post : List String)
    (hp : exec (installCall p args) = some e) :
    ∀ pre : List String, (∀ q ∈ pre, exec (installCall q args) = none) →
      runInstallLoop exec args (pre ++ p :: post)
        = ((pre ++ [p]).map (fun q => installCall q args),
           some ("failed to install " ++ p ++ ": " ++ e)) := by
  intro pre
  induction pre with
  | nil =>
    intro _
    simp [runInstallLoop, hp]
  | cons q qs ih =>
    intro h
    have hq : exec (installCall q args) = none := h q (by simp)
    have ihq := ih (fun x hx => h x (by simp [hx]))
    simp [runInstallLoop, hq, ihq]

end golang

/-- C1: if `Wait` returns an error, `Exec.Run` returns the cancellation
error (wrapping the program name and the context's cancellation cause)
whenever the governing context was already cancelled, and the run
failure (wrapping the program name and the exit error) otherwise;
cancellation classification takes precedence. -/
theorem wait_error_classification (w : execx.CmdWorld) (command : String)
    (streamToLog : Bool) (outLines errLines : List String)
    (outCancel errCancel : Option Nat) (e : String)
    (h1 : w.stdoutPipeErr = none) (h2 : w.stderrPipeErr = none)
    (h3 : w.startErr = none) (h4 : w.waitErr = some e) :
    (∀ c, w.ctxErr = some c →
      (execx.ExecRun w command streamToLog outLines errLines outCancel errCancel).result
        = some (execx.RunError.cancelledFailure command c)) ∧
    (w.ctxErr = none →
      (execx.ExecRun w command streamToLog outLines errLines outCancel errCancel).result
        = some (execx.RunError.runFailure command e)) := by
  constructor
  · intro c hc
    simp [execx.ExecRun, h1, h2, h3, h4, hc]
  · intro hc
    simp [execx.ExecRun, h1, h2, h3, h4, hc]

/-- Witness for C1: a wait error under an already-cancelled context is
classified as the cancellation failure. -/
theorem wait_error_classification_witness :
    (execx.ExecRun ⟨none, none, none, some "exit status 1", some "context canceled"⟩
        "go" true [] [] none none).result
      = some (execx.RunError.cancelledFailure "go" "context canceled") :=
  (wait_error_classification
      ⟨none, none, none, some "exit status 1", some "context canceled"⟩
      "go" true [] [] none none "exit status 1" rfl rfl rfl rfl).1
    "context canceled" rfl

/-- C2 (counterexample): the source admits a schedule of a successful
invocation in which `Run` returns before either drain goroutine has
observed end-of-stream — the drains are not joined. -/
theorem success_before_consumer_eof :
    execx.ValidSuccessTrace execx.lateDrainTrace ∧
    ¬ execx.precedes execx.lateDrainTrace execx.Ev.outEofEv execx.Ev.runRetEv ∧
    ¬ execx.precedes execx.lateDrainTrace execx.Ev.errEofEv execx.Ev.runRetEv := by
  decide

/-- C2 (amended): on a successful invocation `Exec.Run` returns success,
and both stream consumers are launched strictly before the blocking
wait (which completes before `Run` returns); their observation of
end-of-stream, however, is not awaited before returning. -/
theorem success_launch_before_wait (t : List execx.Ev)
    (ht : execx.ValidSuccessTrace t) (w : execx.CmdWorld) (command : String)
    (streamToLog : Bool) (outLines errLines : List String)
    (outCancel errCancel : Option Nat)
    (h1 : w.stdoutPipeErr = none) (h2 : w.stderrPipeErr = none)
    (h3 : w.startErr = none) (h4 : w.waitErr = none) :
    ((execx.ExecRun w command streamToLog outLines errLines outCancel errCancel).result
        = none ∧
     (execx.ExecRun w command streamToLog outLines errLines outCancel errCancel).consumersLaunched
        = true) ∧
    execx.precedes t execx.Ev.spawnOutEv execx.Ev.waitRetEv ∧
    execx.precedes t execx.Ev.spawnErrEv execx.Ev.waitRetEv ∧
    execx.precedes t execx.Ev.waitRetEv execx.Ev.runRetEv := by
  obtain ⟨-, -, -, -, hso, hsw, hwr, -, -, -, -, -, -⟩ := ht
  refine ⟨⟨?_, ?_⟩, Nat.lt_trans hso hsw, hsw, hwr⟩
  · simp [execx.ExecRun, h1, h2, h3, h4]
  · simp [execx.ExecRun, h1, h2, h3, h4]

/-- Witness for C2 (amended): the amended property at a concrete
successful world and a concrete admissible schedule. -/
theorem success_launch_before_wait_witness :
    ((execx.ExecRun execx.okWorld "sh" false [] [] none none).result = none ∧
     (execx.ExecRun execx.okWorld "sh" false [] [] none none).consumersLaunched = true) ∧
    execx.precedes execx.lateDrainTrace execx.Ev.spawnOutEv execx.Ev.waitRetEv ∧
    execx.precedes execx.lateDrainTrace execx.Ev.spawnErrEv execx.Ev.waitRetEv ∧
    execx.precedes execx.lateDrainTrace execx.Ev.waitRetEv execx.Ev.runRetEv :=
  success_launch_before_wait execx.lateDrainTrace (by decide) execx.okWorld "sh" false
    [] [] none none rfl rfl rfl rfl

/-- C3: when `Start` fails, `Exec.Run` returns the start failure wrapping
the program name and the OS error; `Wait` is never called and the result
is never the run failure. -/
theorem start_failure_no_wait (w : execx.CmdWorld) (command : String)
    (streamToLog : Bool) (outLines errLines : List String)
    (outCancel errCancel : Option Nat) (e : String)
    (h1 : w.stdoutPipeErr = none) (h2 : w.stderrPipeErr = none)
    (h3 : w.startErr = some e) :
    (execx.ExecRun w command streamToLog outLines errLines outCancel errCancel).result
      = some (execx.RunError.startFailure command e) ∧
    (execx.ExecRun w command streamToLog outLines errLines outCancel errCancel).waitCalled
      = false ∧
    (∀ cause : String,
      (execx.ExecRun w command streamToLog outLines errLines outCancel errCancel).result
        ≠ some (execx.RunError.runFailure command cause)) := by
  refine ⟨?_, ?_, ?_⟩ <;> simp [execx.ExecRun, h1, h2, h3]

/-- Witness for C3: a missing executable yields the start failure. -/
theorem start_failure_no_wait_witness :
    (execx.ExecRun ⟨none, none, some "executable file not found in $PATH", none, none⟩
        "doesnotexist123" false [] [] none none).result
      = some (execx.RunError.startFailure "doesnotexist123"
          "executable file not found in $PATH") :=
  (start_failure_no_wait
      ⟨none, none, some "executable file not found in $PATH", none, none⟩
      "doesnotexist123" false [] [] none none
      "executable file not found in $PATH" rfl rfl rfl).1

/-- C10: when obtaining the stdout pipe or the stderr pipe fails,
`Exec.Run` returns the wrapped pipe error; `Start` is never called and
no stream consumer is launched. -/
theorem pipe_failure_before_start (w : execx.CmdWorld) (command : String)
    (streamToLog : Bool) (outLines errLines : List String)
    (outCancel errCancel : Option Nat) :
    (∀ e, w.stdoutPipeErr = some e →
      (execx.ExecRun w command streamToLog outLines errLines outCancel errCancel).result
        = some (execx.RunError.pipeFailure execx.StreamKind.stdout e) ∧
      (execx.ExecRun w command streamToLog outLines errLines outCancel errCancel).startCalled
        = false ∧
      (execx.ExecRun w command streamToLog outLines errLines outCancel errCancel).consumersLaunched
        = false) ∧
    (∀ e, w.stdoutPipeErr = none → w.stderrPipeErr = some e →
      (execx.ExecRun w command streamToLog outLines errLines outCancel errCancel).result
        = some (execx.RunError.pipeFailure execx.StreamKind.stderr e) ∧
      (execx.ExecRun w command streamToLog outLines errLines outCancel errCancel).startCalled
        = false ∧
      (execx.ExecRun w command streamToLog outLines errLines outCancel errCancel).consumersLaunched
        = false) := by
  constructor
  · intro e he
    refine ⟨?_, ?_, ?_⟩ <;> simp [execx.ExecRun, he]
  · intro e ho he
    refine ⟨?_, ?_, ?_⟩ <;> simp [execx.ExecRun, ho, he]

/-- Witness for C10: a failing stdout pipe yields the wrapped pipe error
with no start and no consumers. -/
theorem pipe_failure_before_start_witness :
    (execx.ExecRun ⟨some "bad file descriptor", none, none, none, none⟩
        "go" true [] [] none none).result
      = some (execx.RunError.pipeFailure execx.StreamKind.stdout "bad file descriptor") ∧
    (execx.ExecRun ⟨some "bad file descriptor", none, none, none, none⟩
        "go" true [] [] none none).startCalled = false ∧
    (execx.ExecRun ⟨some "bad file descriptor", none, none, none, none⟩
        "go" true [] [] none none).consumersLaunched = false :=
  (pipe_failure_before_start ⟨some "bad file descriptor", none, none, none, none⟩
      "go" true [] [] none none).1 "bad file descriptor" rfl

/-- C4: for a log-streaming consumer, a line exceeding the 1 MiB cap is
a stream-read error: the records before it are delivered, an
error-severity read-error record is logged, consumption of that stream
stops there, the other stream's records are unaffected, and the
invocation's result is still determined by the OS outcomes alone. -/
theorem too_long_line_stream_error (level : execx.LogLevel) (good : List String)
    (bad : String) (rest : List String) (w : execx.CmdWorld) (command : String)
    (errLines : List String) (errCancel : Option Nat)
    (hg : ∀ l ∈ good, l.length ≤ execx.maxCapacity)
    (hb : execx.maxCapacity < bad.length)
    (h1 : w.stdoutPipeErr = none) (h2 : w.stderrPipeErr = none)
    (h3 : w.startErr = none) :
    execx.streamToSlog none (good ++ bad :: rest) level
      = good.map (execx.LogRecord.line level)
        ++ [execx.LogRecord.streamReadError execx.errTooLong] ∧
    (execx.LogRecord.streamReadError execx.errTooLong).severity
      = execx.LogLevel.error ∧
    (execx.ExecRun w command true (good ++ bad :: rest) errLines none errCancel).stderrLogs
      = execx.streamToSlog errCancel errLines execx.LogLevel.error ∧
    (execx.ExecRun w command true (good ++ bad :: rest) errLines none errCancel).result
      = execx.runResult w command := by
  refine ⟨execx.streamLoop_too_long level bad rest hb good hg, rfl, ?_, ?_⟩
  · simp [execx.ExecRun, h1, h2, h3]
  · exact execx.execRun_result_eq w command true _ errLines none errCancel

/-- Witness for C4: a concrete stream whose second line is one byte over
the cap delivers the first line, then the read-error record. -/
theorem too_long_line_stream_error_witness :
    execx.streamToSlog none ["ok", execx.bigLine] execx.LogLevel.info
      = [execx.LogRecord.line execx.LogLevel.info "ok",
         execx.LogRecord.streamReadError execx.errTooLong] ∧
    (execx.LogRecord.streamReadError execx.errTooLong).severity
      = execx.LogLevel.error ∧
    (execx.ExecRun execx.okWorld "sh" true ["ok", execx.bigLine] ["e"] none none).stderrLogs
      = execx.streamToSlog none ["e"] execx.LogLevel.error ∧
    (execx.ExecRun execx.okWorld "sh" true ["ok", execx.bigLine] ["e"] none none).result
      = execx.runResult execx.okWorld "sh" :=
  too_long_line_stream_error execx.LogLevel.info ["ok"] execx.bigLine []
    execx.okWorld "sh" ["e"] none (by decide)
    (by
      have h : execx.bigLine.length
          = (List.replicate (execx.maxCapacity + 1) 'a').length := rfl
      rw [h, List.length_replicate]
      omega)
    rfl rfl rfl

/-- C5: with `streamToLog` true, each consumer emits exactly one
structured record per line — stdout lines at info severity, stderr
lines at error severity — and every line within the 1 MiB cap is
delivered intact. -/
theorem streaming_one_record_per_line (w : execx.CmdWorld) (command : String)
    (outLines errLines : List String)
    (h1 : w.stdoutPipeErr = none) (h2 : w.stderrPipeErr = none)
    (h3 : w.startErr = none)
    (ho : ∀ l ∈ outLines, l.length ≤ execx.maxCapacity)
    (he : ∀ l ∈ errLines, l.length ≤ execx.maxCapacity) :
    (execx.ExecRun w command true outLines errLines none none).stdoutLogs
      = outLines.map (execx.LogRecord.line execx.LogLevel.info) ∧
    (execx.ExecRun w command true outLines errLines none none).stderrLogs
      = errLines.map (execx.LogRecord.line execx.LogLevel.error) := by
  have hox := execx.streamLoop_none_ok execx.LogLevel.info outLines ho
  have hex := execx.streamLoop_none_ok execx.LogLevel.error errLines he
  constructor
  · simp [execx.ExecRun, h1, h2, h3, execx.streamToSlog, hox]
  · simp [execx.ExecRun, h1, h2, h3, execx.streamToSlog, hex]

/-- Witness for C5: concrete short lines are logged one record per line
at the right severities. -/
theorem streaming_one_record_per_line_witness :
    (execx.ExecRun execx.okWorld "sh" true ["ok"] ["bad"] none none).stdoutLogs
      = [execx.LogRecord.line execx.LogLevel.info "ok"] ∧
    (execx.ExecRun execx.okWorld "sh" true ["ok"] ["bad"] none none).stderrLogs
      = [execx.LogRecord.line execx.LogLevel.error "bad"] :=
  streaming_one_record_per_line execx.okWorld "sh" ["ok"] ["bad"]
    rfl rfl rfl (by decide) (by decide)

/-- C6 (counterexample): a raw-copy consumer (`streamToLog` false) does
not check the cancellation context: with cancellation observable before
the first read it still copies the whole stream and emits no
cancellation notice. -/
theorem raw_copy_ignores_cancellation :
    (execx.ExecRun execx.okWorld "ko" false ["chunk"] [] (some 0) none).stdoutCopied
      = ["chunk"] ∧
    (execx.ExecRun execx.okWorld "ko" false ["chunk"] [] (some 0) none).stdoutLogs = [] ∧
    (execx.ExecRun execx.okWorld "ko" false ["chunk"] [] (some 0) none).stderrLogs = [] := by
  decide

/-- C6 (amended): only the log-streaming consumers check the
cancellation context between reads — observing cancellation they stop
immediately and log a warn-severity cancellation notice; the raw-copy
consumers copy every chunk to the terminal regardless of cancellation
and log nothing. -/
theorem cancellation_check_only_in_log_mode :
    (∀ (level : execx.LogLevel) (k : Nat) (lines : List String),
      k < lines.length → (∀ l ∈ lines, l.length ≤ execx.maxCapacity) →
      execx.streamToSlog (some k) lines level
        = (lines.take k).map (execx.LogRecord.line level)
          ++ [execx.LogRecord.streamCanceled "context canceled"] ∧
      (execx.LogRecord.streamCanceled "context canceled").severity
        = execx.LogLevel.warn) ∧
    (∀ (w : execx.CmdWorld) (command : String) (outLines errLines : List String)
      (outCancel errCancel : Option Nat),
      w.stdoutPipeErr = none → w.stderrPipeErr = none → w.startErr = none →
      (execx.ExecRun w command false outLines errLines outCancel errCancel).stdoutCopied
        = outLines ∧
      (execx.ExecRun w command false outLines errLines outCancel errCancel).stderrCopied
        = errLines ∧
      (execx.ExecRun w command false outLines errLines outCancel errCancel).stdoutLogs
        = [] ∧
      (execx.ExecRun w command false outLines errLines outCancel errCancel).stderrLogs
        = []) := by
  constructor
  · intro level k lines hk hcap
    exact ⟨execx.streamLoop_cancel level k lines hk hcap, rfl⟩
  · intro w command outLines errLines outCancel errCancel h1 h2 h3
    refine ⟨?_, ?_, ?_, ?_⟩ <;> simp [execx.ExecRun, h1, h2, h3, execx.ioCopy_eq]

/-- Witness for C6 (amended): a log-streaming consumer cancelled after
one line stops with the notice; a raw-copy consumer copies everything. -/
theorem cancellation_check_only_in_log_mode_witness :
    (execx.streamToSlog (some 1) ["a", "b", "c"] execx.LogLevel.info
      = [execx.LogRecord.line execx.LogLevel.info "a",
         execx.LogRecord.streamCanceled "context canceled"] ∧
     (execx.LogRecord.streamCanceled "context canceled").severity
       = execx.LogLevel.warn) ∧
    ((execx.ExecRun execx.okWorld "sh" false ["x"] ["y"] (some 0) (some 0)).stdoutCopied
       = ["x"] ∧
     (execx.ExecRun execx.okWorld "sh" false ["x"] ["y"] (some 0) (some 0)).stderrCopied
       = ["y"] ∧
     (execx.ExecRun execx.okWorld "sh" false ["x"] ["y"] (some 0) (some 0)).stdoutLogs
       = [] ∧
     (execx.ExecRun execx.okWorld "sh" false ["x"] ["y"] (some 0) (some 0)).stderrLogs
       = []) :=
  ⟨cancellation_check_only_in_log_mode.1 execx.LogLevel.info 1 ["a", "b", "c"]
      (by decide) (by decide),
   cancellation_check_only_in_log_mode.2 execx.okWorld "sh" ["x"] ["y"]
      (some 0) (some 0) rfl rfl rfl⟩

/-- C7: every option-builder operation with an empty required field
(`kox` Build with empty ImportPath, `kox` Apply with no filenames,
`helmx` Install with empty ReleaseName or Chart, `golang` RunInstall
with no packages) returns its validation error with no executor call at
all — no subprocess is spawned. -/
theorem validation_before_executor :
    (∀ (exec : kox.ExecCall → Option String) (opts : kox.BuildOptions),
      opts.ImportPath = "" →
      kox.Build exec opts = ([], some "import path is required")) ∧
    (∀ (exec : kox.ExecCall → Option String) (opts : kox.ApplyOptions),
      opts.Filenames = [] →
      kox.Apply exec opts = ([], some "at least one filename is required")) ∧
    (∀ (exec : kox.ExecCall → Option String) (opts : helmx.InstallOptions),
      (opts.ReleaseName = "" ∨ opts.Chart = "") →
      (helmx.Install exec opts).1 = [] ∧ (helmx.Install exec opts).2.isSome = true) ∧
    (∀ (exec : kox.ExecCall → Option String) (args : List String),
      golang.RunInstall exec [] args
        = ([], some "no package specified for installation")) := by
  refine ⟨?_, ?_, ?_, ?_⟩
  · intro exec opts h
    simp [kox.Build, h]
  · intro exec opts h
    simp [kox.Apply, h]
  · intro exec opts h
    rcases h with h | h
    · simp [helmx.Install, h]
    · by_cases hr : opts.ReleaseName = ""
      · simp [helmx.Install, hr]
      · simp [helmx.Install, hr, h]
  · intro exec args
    simp [golang.RunInstall]

/-- Witness for C7: concrete empty required fields fail validation with
an executor that would accept anything, and the executor is not called. -/
theorem validation_before_executor_witness :
    kox.Build (fun _ => none) ⟨"", [], [], "", false, false, false, false⟩
      = ([], some "import path is required") ∧
    kox.Apply (fun _ => none) ⟨[], false, "", "", [], false, false, false⟩
      = ([], some "at least one filename is required") ∧
    ((helmx.Install (fun _ => none) ⟨"", "chart", "", [], [], false, false, ""⟩).1 = [] ∧
     (helmx.Install (fun _ => none) ⟨"", "chart", "", [], [], false, false, ""⟩).2.isSome
       = true) ∧
    golang.RunInstall (fun _ => none) [] []
      = ([], some "no package specified for installation") :=
  ⟨validation_before_executor.1 (fun _ => none)
      ⟨"", [], [], "", false, false, false, false⟩ rfl,
   validation_before_executor.2.1 (fun _ => none)
      ⟨[], false, "", "", [], false, false, false⟩ rfl,
   validation_before_executor.2.2.1 (fun _ => none)
      ⟨"", "chart", "", [], [], false, false, ""⟩ (Or.inl rfl),
   validation_before_executor.2.2.2 (fun _ => none) []⟩

/-- C8: the multi-step routines run their steps in order and return the
wrapped error of the first failing step without executing any later
step; if every step succeeds they return success.  Shown for
`RunModTasks` (`go mod tidy` then `go mod verify`) and for `RunInstall`
(each package in order). -/
theorem sequence_aborts_at_first_failure :
    (∀ (exec : kox.ExecCall → Option String) (e : String),
      exec ⟨"go", false, ["mod", "tidy"]⟩ = some e →
      golang.RunModTasks exec
        = ([⟨"go", false, ["mod", "tidy"]⟩],
           some ("failed to run 'go mod tidy': " ++ e))) ∧
    (∀ (exec : kox.ExecCall → Option String) (e : String),
      exec ⟨"go", false, ["mod", "tidy"]⟩ = none →
      exec ⟨"go", false, ["mod", "verify"]⟩ = some e →
      golang.RunModTasks exec
        = ([⟨"go", false, ["mod", "tidy"]⟩, ⟨"go", false, ["mod", "verify"]⟩],
           some ("failed to run 'go mod verify': " ++ e))) ∧
    (∀ exec : kox.ExecCall → Option String,
      exec ⟨"go", false, ["mod", "tidy"]⟩ = none →
      exec ⟨"go", false, ["mod", "verify"]⟩ = none →
      golang.RunModTasks exec
        = ([⟨"go", false, ["mod", "tidy"]⟩, ⟨"go", false, ["mod", "verify"]⟩], none)) ∧
    (∀ (exec : kox.ExecCall → Option String) (args : List String)
      (pre : List String) (p e : String) (post : List String),
      (∀ q ∈ pre, exec (golang.installCall q args) = none) →
      exec (golang.installCall p args) = some e →
      golang.RunInstall exec (pre ++ p :: post) args
        = ((pre ++ [p]).map (fun q => golang.installCall q args),
           some ("failed to install " ++ p ++ ": " ++ e))) ∧
    (∀ (exec : kox.ExecCall → Option String) (args : List String)
      (pkgs : List String), pkgs ≠ [] →
      (∀ q ∈ pkgs, exec (golang.installCall q args) = none) →
      golang.RunInstall exec pkgs args
        = (pkgs.map (fun q => golang.installCall q args), none)) := by
  refine ⟨?_, ?_, ?_, ?_, ?_⟩
  · intro exec e h
    simp [golang.RunModTasks, golang.runGoSeq, golang.modTasksCommands, h]
    rfl
  · intro exec e h1 h2
    simp [golang.RunModTasks, golang.runGoSeq, golang.modTasksCommands, h1, h2]
    rfl
  · intro exec h1 h2
    simp [golang.RunModTasks, golang.runGoSeq, golang.modTasksCommands, h1, h2]
  · intro exec args pre p e post hpre hp
    have h := golang.runInstallLoop_first_fail exec args p e post hp pre hpre
    have hne : pre ++ p :: post ≠ [] := by simp
    simp [golang.RunInstall, hne, h]
  · intro exec args pkgs hne hall
    have h := golang.runInstallLoop_all_ok exec args pkgs hall
    simp [golang.RunInstall, hne, h]

/-- Witness for C8: with an executor failing exactly on `go install b`,
installing a, b, c stops after b with the wrapped error; a fully
successful `RunModTasks` runs both steps. -/
theorem sequence_aborts_at_first_failure_witness :
    golang.RunInstall
        (fun c => if c.args = ["install", "b"] then some "boom" else none)
        ["a", "b", "c"] []
      = ([golang.installCall "a" [], golang.installCall "b" []],
         some "failed to install b: boom") ∧
    golang.RunModTasks (fun _ => none)
      = ([⟨"go", false, ["mod", "tidy"]⟩, ⟨"go", false, ["mod", "verify"]⟩], none) :=
  ⟨sequence_aborts_at_first_failure.2.2.2.1
      (fun c => if c.args = ["install", "b"] then some "boom" else none)
      [] ["a"] "b" "boom" ["c"] (by decide) (by decide),
   sequence_aborts_at_first_failure.2.2.1 (fun _ => none) rfl rfl⟩

/-- C9: in both `kox` Build and Apply, a non-empty BaseImage is mapped
to the adjacent argument pair `--base-import-paths <BaseImage>`, and
PreserveImportPaths appends the flag `--preserve-import-paths`. -/
theorem base_image_flag_mapping (b : kox.BuildOptions) (a : kox.ApplyOptions) :
    (b.BaseImage ≠ "" →
      ∃ s t, kox.buildArgs b = s ++ ["--base-import-paths", b.BaseImage] ++ t) ∧
    (a.BaseImage ≠ "" →
      ∃ s t, kox.applyArgs a = s ++ ["--base-import-paths", a.BaseImage] ++ t) ∧
    (b.PreserveImportPaths = true →
      ∃ s, kox.buildArgs b = s ++ ["--preserve-import-paths"]) ∧
    (a.PreserveImportPaths = true →
      ∃ s, kox.applyArgs a = s ++ ["--preserve-import-paths"]) := by
  refine ⟨?_, ?_, ?_, ?_⟩
  · intro h
    refine ⟨["build", b.ImportPath] ++ b.Tags.flatMap (fun t => ["--tags", t])
        ++ b.Platform.flatMap (fun p => ["--platform", p]),
        (if b.Bare then ["--bare"] else []) ++ (if b.Local then ["--local"] else [])
        ++ (if b.Push then ["--push"] else [])
        ++ (if b.PreserveImportPaths then ["--preserve-import-paths"] else []), ?_⟩
    simp [kox.buildArgs, h, List.append_assoc]
  · intro h
    refine ⟨["apply"] ++ a.Filenames.flatMap (fun f => ["-f", f])
        ++ (if a.Recursive then ["--recursive"] else [])
        ++ (if a.Selector = "" then [] else ["--selector", a.Selector]),
        a.Platform.flatMap (fun p => ["--platform", p])
        ++ (if a.Local then ["--local"] else []) ++ (if a.Bare then ["--bare"] else [])
        ++ (if a.PreserveImportPaths then ["--preserve-import-paths"] else []), ?_⟩
    simp [kox.applyArgs, h, List.append_assoc]
  · intro h
    refine ⟨["build", b.ImportPath] ++ b.Tags.flatMap (fun t => ["--tags", t])
        ++ b.Platform.flatMap (fun p => ["--platform", p])
        ++ (if b.BaseImage = "" then [] else ["--base-import-paths", b.BaseImage])
        ++ (if b.Bare then ["--bare"] else []) ++ (if b.Local then ["--local"] else [])
        ++ (if b.Push then ["--push"] else []), ?_⟩
    simp [kox.buildArgs, h, List.append_assoc]
  · intro h
    refine ⟨["apply"] ++ a.Filenames.flatMap (fun f => ["-f", f])
        ++ (if a.Recursive then ["--recursive"] else [])
        ++ (if a.Selector = "" then [] else ["--selector", a.Selector])
        ++ (if a.BaseImage = "" then [] else ["--base-import-paths", a.BaseImage])
        ++ a.Platform.flatMap (fun p => ["--platform", p])
        ++ (if a.Local then ["--local"] else []) ++ (if a.Bare then ["--bare"] else []), ?_⟩
    simp [kox.applyArgs, h, List.append_assoc]

/-- Witness for C9: concrete build options with a base image and
preserve-import-paths set produce both argument forms. -/
theorem base_image_flag_mapping_witness :
    (∃ s t, kox.buildArgs ⟨"./cmd/app", [], [], "img", false, false, false, true⟩
        = s ++ ["--base-import-paths", "img"] ++ t) ∧
    (∃ s, kox.buildArgs ⟨"./cmd/app", [], [], "img", false, false, false, true⟩
        = s ++ ["--preserve-import-paths"]) :=
  ⟨(base_image_flag_mapping ⟨"./cmd/app", [], [], "img", false, false, false, true⟩
      ⟨["m.yaml"], false, "", "", [], false, false, false⟩).1 (by decide),
   (base_image_flag_mapping ⟨"./cmd/app", [], [], "img", false, false, false, true⟩
      ⟨["m.yaml"], false, "", "", [], false, false, false⟩).2.2.1 rfl⟩
